import Mathlib

/-!
# suna: transport and protocol core

A shallow embedding of the connection acceptor (`server.go`), the protocol
dispatcher (`server.go`), the compression negotiation (`compress.go`), the
error recovery dispatch (`route.recover.go`) and the WebSocket upgrade
handshake (`websocket.go`), with the properties proved about them.

Byte slices and Go strings are lists of characters; Go `nil` for a pointer,
an interface or a function value is `none`.
-/

namespace Suna

/-! ## Bytes and headers -/

/-- A Go byte slice (or string), as the list of its characters. -/
abbrev Bytes := List Char

/-- Go `bytes.HasPrefix(s, sep)`. -/
def hasPrefix : Bytes → Bytes → Bool
  | _, [] => true
  | [], _ :: _ => false
  | c :: s, d :: sep => c == d && hasPrefix s sep

/-- The loop of Go `bytes.Split(s, sep)` for a non-empty `sep`: `skip` counts the
bytes of a separator just matched that are still to be dropped, `acc` holds the
bytes of the current piece in reverse. The leftmost match is cut first and
matches do not overlap. -/
def splitLoop (sep : Bytes) : Nat → Bytes → Bytes → List Bytes
  | _, [], acc => [acc.reverse]
  | skip + 1, _ :: s, acc => splitLoop sep skip s acc
  | 0, c :: s, acc =>
    if hasPrefix (c :: s) sep then acc.reverse :: splitLoop sep (sep.length - 1) s []
    else splitLoop sep 0 s (c :: acc)

/-- Go `bytes.Split(s, sep)` (with `sep` non-empty, the only use in the source). -/
def bytesSplit (s sep : Bytes) : List Bytes := splitLoop sep 0 s []

/-- Go `bytes.Contains(s, sub)`. -/
def bytesContains : Bytes → Bytes → Bool
  | [], sub => sub.isEmpty
  | c :: s, sub => hasPrefix (c :: s) sub || bytesContains s sub

/-- Modelled from the spec: the header container (`Header()` of a request or a
response) is declared outside the files at hand; it is a multi-valued list of
name/value pairs, in the order the pairs were added. -/
abbrev Header := List (String × Bytes)

/-- Modelled from the spec: `Header.Get` gives the first value stored under the
name and whether there is one; the value is empty when there is none. -/
def Header.Get (h : Header) (name : String) : Bytes × Bool :=
  match h.find? (fun kv => kv.1 == name) with
  | some kv => (kv.2, true)
  | none => ([], false)

/-- Modelled from the spec: `Header.GetAll` gives every value stored under the
name, in order. -/
def Header.GetAll (h : Header) (name : String) : List Bytes :=
  (h.filter (fun kv => kv.1 == name)).map (fun kv => kv.2)

/-- Modelled from the spec: `Header.Append` adds one more value under the name
and keeps what was stored. -/
def Header.Append (h : Header) (name : String) (v : Bytes) : Header :=
  h ++ [(name, v)]

/-- Modelled from the spec: `Header.Set` replaces whatever was stored under the
name by the one value. -/
def Header.Set (h : Header) (name : String) (v : Bytes) : Header :=
  h.filter (fun kv => kv.1 != name) ++ [(name, v)]

def HeaderAcceptEncoding : String := "Accept-Encoding"
def HeaderContentEncoding : String := "Content-Encoding"
def HeaderConnection : String := "Connection"
def HeaderUpgrade : String := "Upgrade"
def HeaderSecWebSocketVersion : String := "Sec-WebSocket-Version"
def HeaderSecWebSocketKey : String := "Sec-WebSocket-Key"
def HeaderSecWebSocketAccept : String := "Sec-WebSocket-Accept"
def HeaderSecWebSocketExtensions : String := "Sec-WebSocket-Extensions"
def HeaderSecWebSocketProtocol : String := "Sec-WebSocket-Protocol"

/-! ## Request context -/

/-- The three streaming encoders of `compress.go`. -/
inductive Algo where
  | gzip
  | deflate
  | brotli
  deriving DecidableEq, Repr

/-- A compression writer: its algorithm and the level it was created with. -/
structure CompressionWriter where
  algo : Algo
  level : Int
  deriving DecidableEq, Repr

/-- The fields of `Request` the embedded code reads or writes. -/
structure Request where
  header : Header
  webSocketShouldDoCompression : Bool
  deriving DecidableEq, Repr

/-- The fields of `Response` the embedded code reads or writes: `cw` is the
active compression writer and `cwp` the pool it goes back to. -/
structure Response where
  statusCode : Nat
  header : Header
  cw : Option CompressionWriter
  cwp : Option Algo
  deriving DecidableEq, Repr

/-- The request context: the inbound request and the outbound response. -/
structure RequestCtx where
  Request : Request
  Response : Response
  deriving DecidableEq, Repr

/-! ## compress.go -/

def headerCompressValueSep : Bytes := ", ".toList
def gzipStr : Bytes := "gzip".toList
def deflateStr : Bytes := "deflate".toList
def brotliStr : Bytes := "br".toList

/-- The process-wide state `compress.go` reads: the switch, the three levels,
what `sync.Pool.Get` yields for each pool (`none` for an empty pool, otherwise
the level of the pooled writer), and whether the external constructors
`gzip.NewWriterLevel` and `flate.NewWriter` accept a level. -/
structure CompressEnv where
  disableCompress : Bool
  CompressLevelGzip : Int
  CompressLevelDeflate : Int
  CompressLevelBrotli : Int
  poolGet : Algo → Option Int
  gzipLevelOk : Int → Bool
  flateLevelOk : Int → Bool

/-- A Go panic raised by a constructor that refuses its level. -/
inductive Panic where
  | badLevel (a : Algo) (level : Int)
  deriving DecidableEq, Repr

/-- `RequestCtx.CompressBrotli`. -/
def CompressBrotli (env : CompressEnv) (ctx : RequestCtx) : Except Panic RequestCtx :=
  let header := Header.Set ctx.Response.header HeaderContentEncoding brotliStr
  let cwr : CompressionWriter :=
    match env.poolGet .brotli with
    | some level => ⟨.brotli, level⟩
    | none => ⟨.brotli, env.CompressLevelBrotli⟩
  .ok { ctx with Response := { ctx.Response with header := header, cw := some cwr, cwp := some .brotli } }

/-- `RequestCtx.CompressGzip`. -/
def CompressGzip (env : CompressEnv) (ctx : RequestCtx) : Except Panic RequestCtx :=
  let header := Header.Set ctx.Response.header HeaderContentEncoding gzipStr
  match env.poolGet .gzip with
  | some level =>
    .ok { ctx with Response := { ctx.Response with
            header := header, cw := some ⟨.gzip, level⟩, cwp := some .gzip } }
  | none =>
    if env.gzipLevelOk env.CompressLevelGzip then
      .ok { ctx with Response := { ctx.Response with
              header := header, cw := some ⟨.gzip, env.CompressLevelGzip⟩, cwp := some .gzip } }
    else .error (.badLevel .gzip env.CompressLevelGzip)

/-- `RequestCtx.CompressDeflate`. -/
def CompressDeflate (env : CompressEnv) (ctx : RequestCtx) : Except Panic RequestCtx :=
  let header := Header.Set ctx.Response.header HeaderContentEncoding deflateStr
  match env.poolGet .deflate with
  | some level =>
    .ok { ctx with Response := { ctx.Response with
            header := header, cw := some ⟨.deflate, level⟩, cwp := some .deflate } }
  | none =>
    if env.flateLevelOk env.CompressLevelDeflate then
      .ok { ctx with Response := { ctx.Response with
              header := header, cw := some ⟨.deflate, env.CompressLevelDeflate⟩, cwp := some .deflate } }
    else .error (.badLevel .deflate env.CompressLevelDeflate)

/-- The inner loop of `AutoCompress` over the pieces of one header value:
`none` when `br` was met (the function calls `CompressBrotli` and returns),
otherwise the two flags. -/
def scanPieces (acceptGzip acceptDeflate : Bool) : List Bytes → Option (Bool × Bool)
  | [] => some (acceptGzip, acceptDeflate)
  | v :: vs =>
    if v = gzipStr then scanPieces true acceptDeflate vs
    else if v = deflateStr then scanPieces acceptGzip true vs
    else if v = brotliStr then none
    else scanPieces acceptGzip acceptDeflate vs

/-- The outer loop of `AutoCompress` over the header values. -/
def scanHeaderVals (acceptGzip acceptDeflate : Bool) : List Bytes → Option (Bool × Bool)
  | [] => some (acceptGzip, acceptDeflate)
  | headerVal :: rest =>
    match scanPieces acceptGzip acceptDeflate (bytesSplit headerVal headerCompressValueSep) with
    | none => none
    | some (g, d) => scanHeaderVals g d rest

/-- `RequestCtx.AutoCompress`. -/
def AutoCompress (env : CompressEnv) (ctx : RequestCtx) : Except Panic RequestCtx :=
  if env.disableCompress then .ok ctx
  else
    match scanHeaderVals false false (Header.GetAll ctx.Request.header HeaderAcceptEncoding) with
    | none => CompressBrotli env ctx
    | some (_, true) => CompressDeflate env ctx
    | some (true, false) => CompressGzip env ctx
    | some (false, false) => .ok ctx

/-- `DisableCompress`: the switch is set; nothing in the source clears it. -/
def DisableCompress (env : CompressEnv) : CompressEnv :=
  { env with disableCompress := true }

/-- The pieces `AutoCompress` looks at: every `Accept-Encoding` value cut at the
separator `headerCompressValueSep`. -/
def acceptPieces (h : Header) : List Bytes :=
  (Header.GetAll h HeaderAcceptEncoding).flatMap (fun v => bytesSplit v headerCompressValueSep)

/-- The reference selection over a collection of tokens: brotli, else deflate,
else gzip, else nothing. It is stated on membership only. -/
def referenceSelection (tokens : List Bytes) : Option Algo :=
  if brotliStr ∈ tokens then some .brotli
  else if deflateStr ∈ tokens then some .deflate
  else if gzipStr ∈ tokens then some .gzip
  else none

/-- Running the routine of the selected algorithm, or none of them. -/
def install (env : CompressEnv) (ctx : RequestCtx) : Option Algo → Except Panic RequestCtx
  | some .brotli => CompressBrotli env ctx
  | some .deflate => CompressDeflate env ctx
  | some .gzip => CompressGzip env ctx
  | none => .ok ctx

/-- The algorithm whose pool a finished call left installed on the response. -/
def installedAlgo : Except Panic RequestCtx → Option Algo
  | .ok c => c.Response.cwp
  | .error _ => none

/-- Cutting a byte string at every comma. -/
def commaSplit : Bytes → Bytes → List Bytes
  | [], acc => [acc.reverse]
  | c :: s, acc => if c = ',' then acc.reverse :: commaSplit s [] else commaSplit s (c :: acc)

/-- Dropping leading spaces and tabs. -/
def trimLeft : Bytes → Bytes
  | [] => []
  | c :: s => if c = ' ' ∨ c = '\t' then trimLeft s else c :: s

/-- Dropping the spaces and tabs around a list element. -/
def trimOWS (s : Bytes) : Bytes := (trimLeft (trimLeft s).reverse).reverse

/-- The tokens of the `Accept-Encoding` values read as comma-separated lists, as
the specification words it: each value is cut at its commas and the blanks
around an element do not count. -/
def commaSeparatedTokens (h : Header) : List Bytes :=
  (Header.GetAll h HeaderAcceptEncoding).flatMap (fun v => (commaSplit v []).map trimOWS)

/-- The same reading without dropping blanks: each value is cut at its commas
and nothing else is done. -/
def commaCutTokens (h : Header) : List Bytes :=
  (Header.GetAll h HeaderAcceptEncoding).flatMap (fun v => commaSplit v [])

/-! ## server.go -/

/-- What a TLS connection does when asked to shake hands: fail, or succeed with
a negotiated application protocol. -/
structure TlsState where
  handshakeFails : Bool
  NegotiatedProtocol : String
  deriving DecidableEq, Repr

/-- An accepted connection: an identity and, for a `*tls.Conn`, its TLS state. -/
structure Conn where
  id : Nat
  tls : Option TlsState
  deriving DecidableEq, Repr

/-- A protocol handler (a value of the `Protocol` interface), by identity. -/
structure Protocol where
  id : Nat
  deriving DecidableEq, Repr

/-- The fields of `Server` that `serve` reads; `none` is a nil handler. -/
structure Server where
  http1xProtocol : Option Protocol
  http2Protocol : Option Protocol
  deriving DecidableEq, Repr

/-- `time.Millisecond`; a `time.Duration` is a count of nanoseconds in a signed
64-bit integer, here an integer wrapped by `wrapInt64` after each operation. -/
def Millisecond : Int := 1000000

/-- `time.Second`. -/
def Second : Int := 1000000000

/-- Signed 64-bit wrap-around of an integer result. -/
def wrapInt64 (x : Int) : Int := (x + 2 ^ 63) % 2 ^ 64 - 2 ^ 63

/-- The error `Accept` returned: whether it is a `net.Error` and what its
`Temporary()` says. -/
structure AcceptError where
  isNetError : Bool
  Temporary : Bool
  deriving DecidableEq, Repr

/-- One result of `l.Accept()`: the connection (nil on the usual error) and the
error (nil on success). -/
structure AcceptResult where
  conn : Option Conn
  err : Option AcceptError
  deriving DecidableEq, Repr

/-- What one turn of the accept loop does. -/
inductive AcceptEvent where
  | sleep (d : Int)
  | goServe (conn : Option Conn)
  deriving DecidableEq, Repr

/-- The update of `tempDelay` on a transient error (lines 83 to 90 of
`server.go`). -/
def nextDelay (tempDelay : Int) : Int :=
  let d := if tempDelay = 0 then wrapInt64 (5 * Millisecond) else wrapInt64 (tempDelay * 2)
  if d > wrapInt64 (1 * Second) then wrapInt64 (1 * Second) else d

/-- One turn of the loop of `doAccept`: the new `tempDelay` and what was done. -/
def doAcceptTurn (tempDelay : Int) (r : AcceptResult) : Int × AcceptEvent :=
  match r.err with
  | some e =>
    if e.isNetError && e.Temporary then (nextDelay tempDelay, .sleep (nextDelay tempDelay))
    else (tempDelay, .goServe r.conn)
  | none => (tempDelay, .goServe r.conn)

/-- The loop of `doAccept` over a finite run of `Accept` results, started with a
given `tempDelay`: the events in order. -/
def doAcceptFrom (tempDelay : Int) : List AcceptResult → List AcceptEvent
  | [] => []
  | r :: rs => (doAcceptTurn tempDelay r).2 :: doAcceptFrom (doAcceptTurn tempDelay r).1 rs

/-- `Server.doAccept` over a finite run of `Accept` results: `tempDelay` starts
at zero. -/
def doAccept (rs : List AcceptResult) : List AcceptEvent := doAcceptFrom 0 rs

/-- The value of `tempDelay` after a run of `Accept` results. -/
def delayAfter (tempDelay : Int) : List AcceptResult → Int
  | [] => tempDelay
  | r :: rs => delayAfter (doAcceptTurn tempDelay r).1 rs

/-- A successful `Accept`. -/
def AcceptResult.isSuccess (r : AcceptResult) : Bool := r.err.isNone

/-- An `Accept` that failed with a transient error. -/
def AcceptResult.isTransient (r : AcceptResult) : Bool :=
  match r.err with
  | some e => e.isNetError && e.Temporary
  | none => false

/-- `Server.tslHandshake`: the TLS connection (nil without TLS), the negotiated
protocol and whether the handshake failed. -/
def tslHandshake (conn : Conn) : Option Conn × String × Bool :=
  match conn.tls with
  | none => (none, "", false)
  | some t =>
    if t.handshakeFails then (none, "", true)
    else (some conn, t.NegotiatedProtocol, false)

/-- What `serve` does with the connection: the TLS handshake it asks for,
closing, handing over to a protocol handler, or writing bytes itself. -/
inductive ServeEvent where
  | handshake (conn : Conn)
  | close (conn : Conn)
  | protocolServe (p : Protocol) (conn : Conn)
  | write (conn : Conn) (b : Bytes)
  deriving DecidableEq, Repr

/-- The handshake `tslHandshake` runs on a `*tls.Conn`. -/
def handshakeEvents (conn : Conn) : List ServeEvent :=
  match conn.tls with
  | none => []
  | some _ => [.handshake conn]

/-- The handler `serve` picks (lines 132 to 141 of `server.go`). -/
def selectProtocol (s : Server) (tlsConn : Option Conn) (protocolName : String) : Option Protocol :=
  match tlsConn with
  | none => s.http1xProtocol
  | some _ =>
    if protocolName = "" ∨ protocolName = "http/1.0" ∨ protocolName = "http/1.1" then s.http1xProtocol
    else if protocolName = "http/2.0" then s.http2Protocol
    else none

/-- `Server.serve`: the events on the connection, in order. -/
def serve (s : Server) (conn : Conn) : List ServeEvent :=
  match tslHandshake conn with
  | (_, _, true) => handshakeEvents conn ++ [.close conn]
  | (tlsConn, protocolName, false) =>
    match selectProtocol s tlsConn protocolName with
    | none => handshakeEvents conn ++ [.close conn]
    | some protocol => handshakeEvents conn ++ [.protocolServe protocol conn]

/-- The dispatch table of the specification: no TLS, or a negotiated protocol
among the empty string, `http/1.0` and `http/1.1`, gives the HTTP/1.x handler;
`http/2.0` gives the HTTP/2 handler; anything else gives none. -/
def dispatchTable (s : Server) (conn : Conn) : Option Protocol :=
  match conn.tls with
  | none => s.http1xProtocol
  | some t =>
    if t.NegotiatedProtocol ∈ ["", "http/1.0", "http/1.1"] then s.http1xProtocol
    else if t.NegotiatedProtocol = "http/2.0" then s.http2Protocol
    else none

/-! ## route.recover.go -/

/-- An error handler registered with `RecoverByType` or `RecoverByErr`, by
identity. -/
structure ErrorHandler where
  id : Nat
  deriving DecidableEq, Repr

/-- A value raised while a request was handled, as `doRecover` sees it: its
concrete type, its identity among the values of that type, what
`reflect.Type.ConvertibleTo` answers for the three interface types, what the
methods of those interfaces return, and whether the concrete type is hashable
(a slice, a map, a function, or a struct or array holding one, is not), which
decides whether the value can be the key of a Go map. -/
structure RaisedValue where
  typ : Nat
  val : Nat
  convertibleToError : Bool
  convertibleToHTTPResponseError : Bool
  convertibleToHTTPError : Bool
  StatusCode : Int
  headerOut : Header
  Body : Bytes
  Error : Bytes
  hashable : Bool
  deriving DecidableEq, Repr

/-- The two registries: `errTypeMap` keyed by concrete type and `errValMap` keyed
by error value (a value is a type and an identity); a stored function may be
nil. The most recent entry for a key comes first. -/
structure Registries where
  errTypeMap : List (Nat × Option ErrorHandler)
  errValMap : List ((Nat × Nat) × Option ErrorHandler)
  deriving DecidableEq, Repr

/-- `RecoverByType`. -/
def RecoverByType (reg : Registries) (t : Nat) (fn : Option ErrorHandler) : Registries :=
  { reg with errTypeMap := (t, fn) :: reg.errTypeMap }

/-- `RecoverByErr`. -/
def RecoverByErr (reg : Registries) (v : Nat × Nat) (fn : Option ErrorHandler) : Registries :=
  { reg with errValMap := (v, fn) :: reg.errValMap }

/-- Reading a Go map of functions: nil when the key is absent. -/
def mapGet {κ : Type} [DecidableEq κ] (m : List (κ × Option ErrorHandler)) (k : κ) :
    Option ErrorHandler :=
  match m.find? (fun e => e.1 = k) with
  | some e => e.2
  | none => none

/-- What `doRecover` does, step by step. -/
inductive RecoverEvent where
  | resetBody
  | handler (fn : ErrorHandler) (v : RaisedValue)
  | setStatusCode (sc : Int)
  | writeHeader (h : Header)
  | write (b : Bytes)
  | logStacks (v : RaisedValue) (skip : Nat) (maxDepth : Nat)
  | runtimePanic
  deriving DecidableEq, Repr

/-- The outcome of reading a Go map of functions under an interface key: the
function read (nil when the key is absent), or the runtime panic `hash of
unhashable type`. -/
inductive MapRead where
  | fn (f : Option ErrorHandler)
  | panics
  deriving DecidableEq, Repr

def StatusBadRequest : Nat := 400
def StatusSwitchingProtocols : Nat := 101
def StatusInternalServerError : Nat := 500

/-- The capability part of `doRecover` (lines 63 to 86 of `route.recover.go`). -/
def recoverByCapability (v : RaisedValue) : List RecoverEvent :=
  let logStack := true
  let (logStack, evs) :=
    if v.convertibleToHTTPResponseError then
      let logStack := if v.StatusCode < 500 then false else logStack
      (logStack, [RecoverEvent.setStatusCode v.StatusCode, .writeHeader v.headerOut, .write v.Body])
    else if v.convertibleToHTTPError then
      let logStack := if v.StatusCode < 500 then false else logStack
      (logStack, [RecoverEvent.setStatusCode v.StatusCode, .write v.Error])
    else
      (logStack, [RecoverEvent.setStatusCode StatusInternalServerError])
  if logStack then evs ++ [.logStacks v 2 20] else evs

/-- The read `errValMap[v.(error)]` that `doRecover` makes for an error value
(lines 50 to 56); a value that is not an error is not looked up. The keys stored
in a Go map are hashable, so a value that has an entry is read without a panic;
a value whose concrete type is not hashable has no entry and the read panics,
also on an empty map. -/
def valueHandler (reg : Registries) (v : RaisedValue) : MapRead :=
  if v.convertibleToError then
    match mapGet reg.errValMap (v.typ, v.val) with
    | some fn => .fn (some fn)
    | none => if v.hashable then .fn none else .panics
  else .fn none

/-- `doRecover`: the events in order. A panic of the map read ends the run
where it happens, after the body was reset. -/
def doRecover (reg : Registries) (v : RaisedValue) : List RecoverEvent :=
  match valueHandler reg v with
  | .panics => [.resetBody, .runtimePanic]
  | .fn (some fn) => [.resetBody, .handler fn v]
  | .fn none =>
    match mapGet reg.errTypeMap v.typ with
    | some fn => [.resetBody, .handler fn v]
    | none => .resetBody :: recoverByCapability v

/-- A stack trace was logged. -/
def logged (evs : List RecoverEvent) : Bool :=
  evs.any (fun e => match e with
    | .logStacks _ _ _ => true
    | _ => false)

/-- A status was set by `doRecover` itself. -/
def statusSet (evs : List RecoverEvent) : Bool :=
  evs.any (fun e => match e with
    | .setStatusCode _ => true
    | _ => false)

/-! ## websocket.go -/

/-- `WebSocketOptions`; a nil `SelectSubprotocol` is `none`. -/
structure WebSocketOptions where
  ReadBufferSize : Int
  WriteBufferSize : Int
  EnableCompression : Bool
  SelectSubprotocol : Option (RequestCtx → Bytes)

def websocketStr : Bytes := "websocket".toList
def websocketExtCompress : Bytes := "permessage-deflate".toList
def websocketExt : Bytes :=
  "permessage-deflate; server_no_context_takeover; client_no_context_takeover".toList

/-- Modelled from the spec: the constant `upgrade` is declared outside the files
at hand; the handshake answers `Connection: Upgrade`. -/
def upgrade : Bytes := "Upgrade".toList

/-- What `Handshake` does besides updating the context: reading a request
header, computing the accept key, sending the response. -/
inductive WsEvent where
  | getHeader (name : String)
  | computeAcceptKey (key : Bytes)
  | sendResponse (res : Response)
  deriving DecidableEq, Repr

/-- The outcome of `Handshake`: the two returned values, the context as the call
left it, and the events in order. -/
structure HandshakeResult where
  subprotocol : Bytes
  ok : Bool
  ctx : RequestCtx
  events : List WsEvent

/-- The version test of `Handshake` (line 47). -/
def versionOk (version : Bytes) : Bool :=
  !(version.length != 2 || version.get? 0 != some '1' || version.get? 1 != some '3')

/-- The value of the local `compress` of `Handshake` (lines 63 to 71). -/
def compressAccepted (opt : WebSocketOptions) (ctx : RequestCtx) : Bool :=
  if opt.EnableCompression then
    (Header.GetAll ctx.Response.header HeaderSecWebSocketExtensions).any
      (fun hv => bytesContains hv websocketExtCompress)
  else false

/-- The value of the local `subprotocol` of `Handshake` (lines 58 to 61). -/
def chosenSubprotocol (opt : WebSocketOptions) (ctx : RequestCtx) : Bytes :=
  match opt.SelectSubprotocol with
  | some f => f ctx
  | none => []

/-- The response `Handshake` builds once both checks passed (lines 73 to 84). -/
def upgradeResponse (opt : WebSocketOptions) (ComputeAcceptKey : Bytes → Bytes)
    (ctx : RequestCtx) (key : Bytes) : Response :=
  let subprotocol := chosenSubprotocol opt ctx
  let compress := compressAccepted opt ctx
  let res := { ctx.Response with statusCode := StatusSwitchingProtocols }
  let res := { res with header := Header.Append res.header HeaderConnection upgrade }
  let res := { res with header := Header.Append res.header HeaderUpgrade websocketStr }
  let res := { res with header := Header.Append res.header HeaderSecWebSocketAccept (ComputeAcceptKey key) }
  let res := if compress then
      { res with header := Header.Append res.header HeaderSecWebSocketExtensions websocketExt }
    else res
  if subprotocol.length > 0 then
    { res with header := Header.Set res.header HeaderSecWebSocketProtocol subprotocol }
  else res

/-- `_WebSocketProtocol.Handshake`. `ComputeAcceptKey` is the function of the
external websocket package; `sendFails` tells whether `sendResponse` returns an
error for a response. -/
def Handshake (opt : WebSocketOptions) (ComputeAcceptKey : Bytes → Bytes)
    (sendFails : Response → Bool) (ctx : RequestCtx) : HandshakeResult :=
  let version := (Header.Get ctx.Request.header HeaderSecWebSocketVersion).1
  if !versionOk version then
    { subprotocol := [], ok := false,
      ctx := { ctx with Response := { ctx.Response with statusCode := StatusBadRequest } },
      events := [.getHeader HeaderSecWebSocketVersion] }
  else
    let key := (Header.Get ctx.Request.header HeaderSecWebSocketKey).1
    if key.length < 1 then
      { subprotocol := [], ok := false,
        ctx := { ctx with Response := { ctx.Response with statusCode := StatusBadRequest } },
        events := [.getHeader HeaderSecWebSocketVersion, .getHeader HeaderSecWebSocketKey] }
    else
      let subprotocol := chosenSubprotocol opt ctx
      let compress := compressAccepted opt ctx
      let res := upgradeResponse opt ComputeAcceptKey ctx key
      let req := if compress then { ctx.Request with webSocketShouldDoCompression := true }
        else ctx.Request
      let events := [WsEvent.getHeader HeaderSecWebSocketVersion, .getHeader HeaderSecWebSocketKey,
        .computeAcceptKey key, .sendResponse res]
      if sendFails res then
        { subprotocol := [], ok := false, ctx := { Request := req, Response := res }, events := events }
      else
        { subprotocol := subprotocol, ok := true, ctx := { Request := req, Response := res },
          events := events }

/-- Some `Sec-WebSocket-Extensions` value of the request contains the token
`permessage-deflate`: the client offers compression. -/
def clientOffersCompression (ctx : RequestCtx) : Bool :=
  (Header.GetAll ctx.Request.header HeaderSecWebSocketExtensions).any
    (fun hv => bytesContains hv websocketExtCompress)

/-! ## Example inputs -/

/-- The process-wide state before any configuration: compression enabled, the
default levels of the three packages, empty pools. -/
def defaultCompressEnv : CompressEnv where
  disableCompress := false
  CompressLevelGzip := -1
  CompressLevelDeflate := -1
  CompressLevelBrotli := 6
  poolGet := fun _ => none
  gzipLevelOk := fun l => decide (-3 ≤ l ∧ l ≤ 9)
  flateLevelOk := fun l => decide (-2 ≤ l ∧ l ≤ 9)

/-- A fresh response: status 200, no header, no compression writer. -/
def freshResponse : Response := ⟨200, [], none, none⟩

/-- A request context with the given request headers and a fresh response. -/
def ctxWith (h : Header) : RequestCtx := ⟨⟨h, false⟩, freshResponse⟩

/-- An `Accept` that failed with a transient network error. -/
def transientFailure : AcceptResult := ⟨none, some ⟨true, true⟩⟩

/-- An `Accept` that failed with a network error that is not transient. -/
def fatalFailure : AcceptResult := ⟨none, some ⟨true, false⟩⟩

/-- An `Accept` that failed with an error that is not a `net.Error`. -/
def otherFailure : AcceptResult := ⟨none, some ⟨false, false⟩⟩

/-- An `Accept` that returned a connection. -/
def accepted (c : Conn) : AcceptResult := ⟨some c, none⟩

/-- A connection without TLS. -/
def plainConn (id : Nat) : Conn := ⟨id, none⟩

/-- A TLS connection whose handshake succeeds with the given protocol. -/
def tlsConn (id : Nat) (proto : String) : Conn := ⟨id, some ⟨false, proto⟩⟩

/-- The delay of the `k`-th of consecutive transient errors, the count starting
at one and the delay at zero. -/
def backoffDelay (k : Nat) : Int := min (5 * Millisecond * 2 ^ (k - 1)) Second

/-! ## Compression negotiation: proofs -/

theorem scanPieces_eq (g d : Bool) (vs : List Bytes) :
    scanPieces g d vs =
      if brotliStr ∈ vs then none
      else some (g || decide (gzipStr ∈ vs), d || decide (deflateStr ∈ vs)) := by
  induction vs generalizing g d with
  | nil => simp [scanPieces]
  | cons v vs ih =>
    have hgd : gzipStr ≠ deflateStr := by decide
    have hgb : gzipStr ≠ brotliStr := by decide
    have hdb : deflateStr ≠ brotliStr := by decide
    unfold scanPieces
    by_cases h1 : v = gzipStr
    · subst h1
      simp [ih, hgd, hgb, hdb, hgd.symm, hgb.symm, hdb.symm]
    · by_cases h2 : v = deflateStr
      · subst h2
        simp [ih, hgd, hgb, hdb, hgd.symm, hgb.symm, hdb.symm]
      · by_cases h3 : v = brotliStr
        · subst h3
          simp [hgd, hgb, hdb, hgd.symm, hgb.symm, hdb.symm]
        · simp [h1, h2, h3, ih, Ne.symm h1, Ne.symm h2, Ne.symm h3]

theorem scanHeaderVals_eq (g d : Bool) (hs : List Bytes) :
    scanHeaderVals g d hs =
      if brotliStr ∈ hs.flatMap (fun v => bytesSplit v headerCompressValueSep) then none
      else some (g || decide (gzipStr ∈ hs.flatMap (fun v => bytesSplit v headerCompressValueSep)),
        d || decide (deflateStr ∈ hs.flatMap (fun v => bytesSplit v headerCompressValueSep))) := by
  induction hs generalizing g d with
  | nil => simp [scanHeaderVals]
  | cons h hs ih =>
    unfold scanHeaderVals
    rw [scanPieces_eq]
    by_cases hb : brotliStr ∈ bytesSplit h headerCompressValueSep
    · simp [hb]
    · simp only [hb, if_false, ih, List.flatMap_cons, List.mem_append, false_or]
      by_cases hb2 : brotliStr ∈ hs.flatMap (fun v => bytesSplit v headerCompressValueSep)
      · simp [hb2]
      · simp [hb2, Bool.or_assoc]

theorem AutoCompress_eq_install (env : CompressEnv) (ctx : RequestCtx)
    (h : env.disableCompress = false) :
    AutoCompress env ctx = install env ctx (referenceSelection (acceptPieces ctx.Request.header)) := by
  unfold AutoCompress
  simp only [h, Bool.false_eq_true, if_false, scanHeaderVals_eq]
  unfold referenceSelection acceptPieces
  by_cases hb : brotliStr ∈
      (Header.GetAll ctx.Request.header HeaderAcceptEncoding).flatMap
        (fun v => bytesSplit v headerCompressValueSep)
  · simp [hb, install]
  · by_cases hd : deflateStr ∈
        (Header.GetAll ctx.Request.header HeaderAcceptEncoding).flatMap
          (fun v => bytesSplit v headerCompressValueSep)
    · simp [hb, hd, install]
    · by_cases hg : gzipStr ∈
          (Header.GetAll ctx.Request.header HeaderAcceptEncoding).flatMap
            (fun v => bytesSplit v headerCompressValueSep)
      · simp [hb, hd, hg, install]
      · simp [hb, hd, hg, install]

theorem referenceSelection_congr (ts ts' : List Bytes) (h : ∀ t, t ∈ ts ↔ t ∈ ts') :
    referenceSelection ts = referenceSelection ts' := by
  unfold referenceSelection
  simp only [h]

theorem install_cwp (env : CompressEnv) (ctx c : RequestCtx) (a : Algo)
    (h : install env ctx (some a) = .ok c) :
    c.Response.cwp = some a ∧ c.Response.cw.map (fun w => w.algo) = some a
      ∧ Header.GetAll c.Response.header HeaderContentEncoding
          = [match a with
              | .gzip => gzipStr
              | .deflate => deflateStr
              | .brotli => brotliStr] := by
  have hset : ∀ (hd : Header) (v : Bytes),
      Header.GetAll (Header.Set hd HeaderContentEncoding v) HeaderContentEncoding = [v] := by
    intro hd v
    simp [Header.GetAll, Header.Set, List.filter_append, List.filter_filter]
  cases a with
  | brotli =>
    simp only [install, CompressBrotli, Except.ok.injEq] at h
    subst h
    refine ⟨rfl, ?_, hset _ _⟩
    cases env.poolGet .brotli <;> rfl
  | gzip =>
    simp only [install, CompressGzip] at h
    cases hp : env.poolGet .gzip with
    | some l =>
      simp only [hp, Except.ok.injEq] at h
      subst h
      exact ⟨rfl, rfl, hset _ _⟩
    | none =>
      simp only [hp] at h
      split at h
      · simp only [Except.ok.injEq] at h
        subst h
        exact ⟨rfl, rfl, hset _ _⟩
      · cases h
  | deflate =>
    simp only [install, CompressDeflate] at h
    cases hp : env.poolGet .deflate with
    | some l =>
      simp only [hp, Except.ok.injEq] at h
      subst h
      exact ⟨rfl, rfl, hset _ _⟩
    | none =>
      simp only [hp] at h
      split at h
      · simp only [Except.ok.injEq] at h
        subst h
        exact ⟨rfl, rfl, hset _ _⟩
      · cases h

theorem install_response_congr (env : CompressEnv) (ctx ctx' : RequestCtx) (a : Option Algo)
    (h : ctx'.Response = ctx.Response) :
    (install env ctx' a).map (fun c => c.Response) = (install env ctx a).map (fun c => c.Response) := by
  rcases a with _ | a
  · simp [install, Except.map, h]
  · cases a
    · simp only [install, CompressGzip, h]
      cases env.poolGet .gzip <;> simp only [Except.map]
      by_cases hl : env.gzipLevelOk env.CompressLevelGzip = true <;> simp [hl]
    · simp only [install, CompressDeflate, h]
      cases env.poolGet .deflate <;> simp only [Except.map]
      by_cases hl : env.flateLevelOk env.CompressLevelDeflate = true <;> simp [hl]
    · simp only [install, CompressBrotli, h, Except.map]

/-- C1 (as amended): with compression not disabled, `AutoCompress` runs the
routine of the reference selection (brotli, else deflate, else gzip, else
nothing) over the pieces obtained by cutting every `Accept-Encoding` value at the
two-byte separator `", "`; when that routine finishes, the selected algorithm is
the one installed on the response; and the response depends only on which pieces
occur, not on their order, repetition or distribution over header occurrences. -/
theorem AutoCompress_reference_selection (env : CompressEnv) (ctx : RequestCtx)
    (h : env.disableCompress = false) :
    AutoCompress env ctx = install env ctx (referenceSelection (acceptPieces ctx.Request.header))
    ∧ (∀ a c, referenceSelection (acceptPieces ctx.Request.header) = some a →
        AutoCompress env ctx = .ok c →
        c.Response.cwp = some a ∧ c.Response.cw.map (fun w => w.algo) = some a)
    ∧ (referenceSelection (acceptPieces ctx.Request.header) = none → AutoCompress env ctx = .ok ctx)
    ∧ (∀ ctx' : RequestCtx, ctx'.Response = ctx.Response →
        (∀ t, t ∈ acceptPieces ctx'.Request.header ↔ t ∈ acceptPieces ctx.Request.header) →
        (AutoCompress env ctx').map (fun c => c.Response)
          = (AutoCompress env ctx).map (fun c => c.Response)) := by
  refine ⟨AutoCompress_eq_install env ctx h, ?_, ?_, ?_⟩
  · intro a c ha hc
    rw [AutoCompress_eq_install env ctx h, ha] at hc
    exact ⟨(install_cwp env ctx c a hc).1, (install_cwp env ctx c a hc).2.1⟩
  · intro hn
    rw [AutoCompress_eq_install env ctx h, hn]
    rfl
  · intro ctx' hr ht
    rw [AutoCompress_eq_install env ctx h, AutoCompress_eq_install env ctx' h,
      referenceSelection_congr _ _ ht]
    exact install_response_congr env ctx ctx' _ hr

/-- Witness of C1 (as amended): the values `br, gzip` and `gzip, deflate, br`
hold the same pieces up to order, repetition and distribution. -/
theorem AutoCompress_reference_selection_witness :
    defaultCompressEnv.disableCompress = false
    ∧ referenceSelection (acceptPieces
        (ctxWith [("Accept-Encoding", "gzip, deflate".toList),
          ("Accept-Encoding", "br, gzip".toList)]).Request.header) = some .brotli
    ∧ AutoCompress defaultCompressEnv
        (ctxWith [("Accept-Encoding", "gzip, deflate".toList), ("Accept-Encoding", "br, gzip".toList)])
      = install defaultCompressEnv
          (ctxWith [("Accept-Encoding", "gzip, deflate".toList), ("Accept-Encoding", "br, gzip".toList)])
          (some .brotli) :=
  ⟨rfl, by decide,
    (AutoCompress_reference_selection defaultCompressEnv
      (ctxWith [("Accept-Encoding", "gzip, deflate".toList), ("Accept-Encoding", "br, gzip".toList)])
      rfl).1.trans (by rw [show referenceSelection (acceptPieces
        (ctxWith [("Accept-Encoding", "gzip, deflate".toList),
          ("Accept-Encoding", "br, gzip".toList)]).Request.header) = some .brotli by decide])⟩

/-- C1 (as stated) fails: for the single header value `gzip,br`, a
comma-separated list of `gzip` and `br`, the reference selection is brotli, with
or without trimming of blanks, while `AutoCompress` leaves the context as it was
and installs nothing. -/
theorem AutoCompress_comma_list_counterexample :
    defaultCompressEnv.disableCompress = false
    ∧ referenceSelection (commaSeparatedTokens [("Accept-Encoding", "gzip,br".toList)]) = some .brotli
    ∧ referenceSelection (commaCutTokens [("Accept-Encoding", "gzip,br".toList)]) = some .brotli
    ∧ AutoCompress defaultCompressEnv (ctxWith [("Accept-Encoding", "gzip,br".toList)])
        = .ok (ctxWith [("Accept-Encoding", "gzip,br".toList)])
    ∧ installedAlgo (AutoCompress defaultCompressEnv (ctxWith [("Accept-Encoding", "gzip,br".toList)]))
        ≠ referenceSelection (commaSeparatedTokens
            (ctxWith [("Accept-Encoding", "gzip,br".toList)]).Request.header) := by
  refine ⟨rfl, by decide, by decide, by rfl, ?_⟩
  rw [show AutoCompress defaultCompressEnv (ctxWith [("Accept-Encoding", "gzip,br".toList)])
        = .ok (ctxWith [("Accept-Encoding", "gzip,br".toList)]) by rfl]
  decide

/-! ## Connection acceptor: proofs -/

theorem wrapInt64_eq (x : Int) (h1 : -9223372036854775808 ≤ x) (h2 : x < 9223372036854775808) :
    wrapInt64 x = x := by
  unfold wrapInt64
  norm_num
  omega

theorem nextDelay_eq (d : Int) (h0 : 0 ≤ d) (h1 : d ≤ Second) :
    nextDelay d = if d = 0 then 5 * Millisecond else min (d * 2) Second := by
  unfold nextDelay
  have hs : wrapInt64 (1 * Second) = Second := by
    rw [wrapInt64_eq] <;> simp [Second]
  have hm : wrapInt64 (5 * Millisecond) = 5 * Millisecond := by
    rw [wrapInt64_eq] <;> simp [Millisecond]
  have hd : wrapInt64 (d * 2) = d * 2 := by
    unfold Second at h1
    rw [wrapInt64_eq] <;> omega
  simp only [hs, hm, hd]
  by_cases hz : d = 0
  · simp [hz, Millisecond, Second]
  · simp only [hz, if_false]
    unfold Second at *
    by_cases hc : d * 2 > 1000000000
    · simp only [hc, if_true]
      omega
    · simp only [hc, if_false]
      omega

theorem nextDelay_bounds (d : Int) (h0 : 0 ≤ d) (h1 : d ≤ Second) :
    0 < nextDelay d ∧ nextDelay d ≤ Second := by
  rw [nextDelay_eq d h0 h1]
  by_cases hz : d = 0
  · simp [hz, Millisecond, Second]
  · simp only [hz, if_false]
    unfold Second at *
    omega

theorem doAcceptTurn_bounds (d : Int) (r : AcceptResult) (h0 : 0 ≤ d) (h1 : d ≤ Second) :
    0 ≤ (doAcceptTurn d r).1 ∧ (doAcceptTurn d r).1 ≤ Second := by
  have hb := nextDelay_bounds d h0 h1
  unfold doAcceptTurn
  split
  · split
    · exact ⟨le_of_lt hb.1, hb.2⟩
    · exact ⟨h0, h1⟩
  · exact ⟨h0, h1⟩

theorem doAcceptFrom_sleep_le (rs : List AcceptResult) (d : Int) (h0 : 0 ≤ d)
    (h1 : d ≤ Second) (t : Int) (ht : AcceptEvent.sleep t ∈ doAcceptFrom d rs) :
    t ≤ Second := by
  induction rs generalizing d with
  | nil => simp [doAcceptFrom] at ht
  | cons r rs ih =>
    simp only [doAcceptFrom, List.mem_cons] at ht
    rcases ht with ht | ht
    · have hb := nextDelay_bounds d h0 h1
      unfold doAcceptTurn at ht
      split at ht
      · split at ht
        · simp only [AcceptEvent.sleep.injEq] at ht
          rw [ht]
          exact hb.2
        · cases ht
      · cases ht
    · exact ih _ (doAcceptTurn_bounds d r h0 h1).1 (doAcceptTurn_bounds d r h0 h1).2 ht

theorem doAcceptFrom_length (rs : List AcceptResult) (d : Int) :
    (doAcceptFrom d rs).length = rs.length := by
  induction rs generalizing d with
  | nil => rfl
  | cons r rs ih => simp [doAcceptFrom, ih]

theorem doAcceptFrom_append (pre rs : List AcceptResult) (d : Int) :
    doAcceptFrom d (pre ++ rs) = doAcceptFrom d pre ++ doAcceptFrom (delayAfter d pre) rs := by
  induction pre generalizing d with
  | nil => rfl
  | cons r pre ih => simp [doAcceptFrom, delayAfter, ih]

theorem backoffDelay_bounds (k : Nat) : 0 < backoffDelay k ∧ backoffDelay k ≤ Second := by
  unfold backoffDelay
  have hp : (0 : Int) < 2 ^ (k - 1) := by positivity
  refine ⟨?_, min_le_right _ _⟩
  rw [lt_min_iff]
  constructor
  · have : (0 : Int) < 5 * Millisecond := by simp [Millisecond]
    positivity
  · simp [Second]

theorem nextDelay_backoffDelay (k : Nat) (hk : 1 ≤ k) :
    nextDelay (backoffDelay k) = backoffDelay (k + 1) := by
  have hb := backoffDelay_bounds k
  rw [nextDelay_eq _ (le_of_lt hb.1) hb.2]
  have hne : backoffDelay k ≠ 0 := ne_of_gt hb.1
  simp only [hne, if_false]
  unfold backoffDelay
  have hk' : k + 1 - 1 = (k - 1) + 1 := by omega
  rw [hk', pow_succ]
  have hp : (0 : Int) < 2 ^ (k - 1) := by positivity
  generalize (2 : Int) ^ (k - 1) = p at hp
  unfold Second Millisecond
  rcases le_total (5 * 1000000 * p) 1000000000 with h | h
  · rw [min_eq_left h]
    rcases le_total (5 * 1000000 * (p * 2)) 1000000000 with h2 | h2
    · rw [min_eq_left h2, min_eq_left (by omega)]
      omega
    · rw [min_eq_right h2, min_eq_right (by omega)]
  · rw [min_eq_right h, min_eq_right (by omega), min_eq_right (by omega)]

theorem nextDelay_zero : nextDelay 0 = backoffDelay 1 := by
  rw [nextDelay_eq 0 (le_refl _) (by simp [Second])]
  simp [backoffDelay, Millisecond, Second]

/-- On a run of transient errors the loop only sleeps and the delays follow the
schedule, from any point of the schedule on. -/
theorem doAcceptFrom_transient (rs : List AcceptResult)
    (hall : ∀ r ∈ rs, r.isTransient = true) (j : Nat) (d : Int)
    (hd : nextDelay d = backoffDelay (j + 1)) (hd0 : d = 0 ∨ d = backoffDelay j ∧ 1 ≤ j) :
    doAcceptFrom d rs
      = (List.range rs.length).map (fun i => AcceptEvent.sleep (backoffDelay (j + 1 + i))) := by
  induction rs generalizing j d with
  | nil => rfl
  | cons r rs ih =>
    have hr : r.isTransient = true := hall r (List.mem_cons_self _ _)
    have hturn : doAcceptTurn d r = (nextDelay d, .sleep (nextDelay d)) := by
      unfold AcceptResult.isTransient at hr
      unfold doAcceptTurn
      cases he : r.err with
      | none => simp [he] at hr
      | some e =>
        simp only [he] at hr
        simp [hr]
    have ih' := ih (fun x hx => hall x (List.mem_cons_of_mem _ hx)) (j + 1) (backoffDelay (j + 1))
      (nextDelay_backoffDelay (j + 1) (by omega)) (Or.inr ⟨rfl, by omega⟩)
    simp only [doAcceptFrom, hturn, hd, ih', List.length_cons, List.range_succ_eq_map,
      List.map_cons, List.map_map]
    congr 1
    apply List.map_congr_left
    intro i _
    simp only [Function.comp, Nat.succ_eq_add_one]
    congr 2
    omega

/-- C2 (the code at the failing input): nothing resets `tempDelay` after a
successful accept. A transient error, a success and a transient error sleep 5ms
and then 10ms, not 5ms again; after nine transient errors and a success the next
transient error sleeps one second. -/
theorem doAccept_keeps_delay_after_success :
    doAccept [transientFailure, accepted (plainConn 1), transientFailure]
      = [.sleep (5 * Millisecond), .goServe (some (plainConn 1)), .sleep (10 * Millisecond)]
    ∧ (doAccept (List.replicate 9 transientFailure ++ [accepted (plainConn 1), transientFailure]))[10]?
      = some (.sleep Second)
    ∧ delayAfter 0 (List.replicate 9 transientFailure ++ [accepted (plainConn 1)]) = Second := by
  refine ⟨by decide, by decide, by decide⟩

/-- C3: when the delay is zero and `k ≥ 1` consecutive transient accept errors
follow, the `k`-th of them sleeps `min(5ms * 2^(k-1), 1s)`; from the ninth on that
is one second; and no sleep of `doAccept`, on any run of accept results, exceeds
one second. -/
theorem doAccept_backoff_schedule (pre rs : List AcceptResult) (k : Nat)
    (hpre : delayAfter 0 pre = 0) (hall : ∀ r ∈ rs, r.isTransient = true)
    (hk : 1 ≤ k) (hkl : k ≤ rs.length) :
    (doAccept (pre ++ rs))[pre.length + (k - 1)]?
      = some (.sleep (min (5 * Millisecond * 2 ^ (k - 1)) Second))
    ∧ (9 ≤ k → min (5 * Millisecond * 2 ^ (k - 1)) Second = Second)
    ∧ (∀ (run : List AcceptResult) (t : Int), AcceptEvent.sleep t ∈ doAccept run → t ≤ Second) := by
  refine ⟨?_, ?_, ?_⟩
  · unfold doAccept
    rw [doAcceptFrom_append, hpre,
      doAcceptFrom_transient rs hall 0 0 nextDelay_zero (Or.inl rfl)]
    rw [List.getElem?_append_right (by rw [doAcceptFrom_length]; omega)]
    rw [doAcceptFrom_length]
    have hidx : pre.length + (k - 1) - pre.length = k - 1 := by omega
    rw [hidx, List.getElem?_map, List.getElem?_range (by omega)]
    simp only [Option.map_some', backoffDelay]
    have : 0 + 1 + (k - 1) - 1 = k - 1 := by omega
    rw [this]
  · intro h9
    apply min_eq_right
    have hpow : (2 : Int) ^ 8 ≤ 2 ^ (k - 1) := pow_le_pow_right₀ (by norm_num) (by omega)
    unfold Second Millisecond
    norm_num at hpow ⊢
    omega
  · intro run t ht
    exact doAcceptFrom_sleep_le run 0 (le_refl _) (by simp [Second]) t ht

/-- Witness of C3: after one success, the ninth of nine consecutive transient
errors sleeps one second. -/
theorem doAccept_backoff_schedule_witness :
    (doAccept ([accepted (plainConn 1)] ++ List.replicate 9 transientFailure))[1 + (9 - 1)]?
      = some (.sleep (min (5 * Millisecond * 2 ^ (9 - 1)) Second)) :=
  (doAccept_backoff_schedule [accepted (plainConn 1)] (List.replicate 9 transientFailure) 9
    (by decide) (by decide) (by decide) (by decide)).1

/-! ## Protocol dispatcher: proofs -/

theorem selectProtocol_eq_dispatchTable (s : Server) (conn : Conn) (t : TlsState)
    (ht : conn.tls = some t) :
    selectProtocol s (some conn) t.NegotiatedProtocol = dispatchTable s conn := by
  simp [selectProtocol, dispatchTable, ht]

/-- The events of `serve` in terms of the dispatch table. -/
theorem serve_eq (s : Server) (conn : Conn) :
    serve s conn =
      handshakeEvents conn ++
        (if (∃ t, conn.tls = some t ∧ t.handshakeFails = true) then [ServeEvent.close conn]
         else match dispatchTable s conn with
          | none => [ServeEvent.close conn]
          | some p => [ServeEvent.protocolServe p conn]) := by
  cases ht : conn.tls with
  | none =>
    simp only [serve, tslHandshake, ht, selectProtocol, dispatchTable]
    cases s.http1xProtocol <;> simp
  | some t =>
    by_cases hf : t.handshakeFails = true
    · simp [serve, tslHandshake, ht, hf]
    · have hsel := selectProtocol_eq_dispatchTable s conn t ht
      simp only [serve, tslHandshake, ht, hf, Bool.false_eq_true, if_false, hsel]
      cases hd : dispatchTable s conn <;> simp [hf]

theorem handshakeEvents_cases (conn : Conn) :
    handshakeEvents conn = [] ∨ handshakeEvents conn = [.handshake conn] := by
  unfold handshakeEvents
  cases conn.tls <;> simp

/-- C4: whenever `serve` hands a connection to a protocol handler, the
connection is its own, the handshake (if any) succeeded and the handler is the
one of the dispatch table: the HTTP/1.x handler without TLS or for the TLS
protocols `""`, `http/1.0`, `http/1.1`, the HTTP/2 handler for `http/2.0`; that
handler is invoked exactly once and nothing else is invoked or closed. -/
theorem serve_hands_to_dispatch_table (s : Server) (conn c : Conn) (p : Protocol)
    (h : ServeEvent.protocolServe p c ∈ serve s conn) :
    c = conn
    ∧ dispatchTable s conn = some p
    ∧ (conn.tls = none → s.http1xProtocol = some p)
    ∧ (∀ t, conn.tls = some t → t.handshakeFails = false
        ∧ (t.NegotiatedProtocol = "" ∨ t.NegotiatedProtocol = "http/1.0"
            ∨ t.NegotiatedProtocol = "http/1.1" → s.http1xProtocol = some p)
        ∧ (t.NegotiatedProtocol = "http/2.0" → s.http2Protocol = some p))
    ∧ serve s conn = handshakeEvents conn ++ [.protocolServe p conn]
    ∧ (serve s conn).count (.protocolServe p conn) = 1
    ∧ (∀ q c', ServeEvent.protocolServe q c' ∈ serve s conn → q = p ∧ c' = conn)
    ∧ ServeEvent.close conn ∉ serve s conn := by
  have hs := serve_eq s conn
  have hh := handshakeEvents_cases conn
  by_cases hf : ∃ t, conn.tls = some t ∧ t.handshakeFails = true
  · rw [hs] at h
    rcases hh with hh | hh <;> simp [hh, hf] at h
  · simp only [hf, if_false] at hs
    cases hd : dispatchTable s conn with
    | none =>
      rw [hs, hd] at h
      rcases hh with hh | hh <;> simp [hh] at h
    | some q =>
      rw [hd] at hs
      have hmem : ∀ q' c', ServeEvent.protocolServe q' c' ∈ serve s conn → q' = q ∧ c' = conn := by
        intro q' c' hm
        rw [hs] at hm
        rcases hh with hh | hh <;> simpa [hh] using hm
      obtain ⟨hq, hc⟩ := hmem p c h
      subst hq
      subst hc
      refine ⟨rfl, rfl, ?_, ?_, hs, ?_, hmem, ?_⟩
      · intro hn
        simpa [dispatchTable, hn] using hd
      · intro t ht
        have hnf : t.handshakeFails = false := by
          cases hb : t.handshakeFails
          · rfl
          · exact absurd ⟨t, ht, hb⟩ hf
        refine ⟨hnf, ?_, ?_⟩
        · intro h1
          have : t.NegotiatedProtocol ∈ ["", "http/1.0", "http/1.1"] := by
            simpa using h1
          simpa [dispatchTable, ht, this] using hd
        · intro h2
          have hne : t.NegotiatedProtocol ∉ ["", "http/1.0", "http/1.1"] := by
            rw [h2]
            decide
          simpa [dispatchTable, ht, hne, h2] using hd
      · rw [hs]
        rcases hh with hh | hh <;> simp [hh]
      · rw [hs]
        rcases hh with hh | hh <;> simp [hh]

/-- Witness of C4: a TLS connection that negotiated `http/2.0` goes to the
HTTP/2 handler. -/
theorem serve_hands_to_dispatch_table_witness :
    ServeEvent.protocolServe ⟨2⟩ (tlsConn 7 "http/2.0")
        ∈ serve ⟨some ⟨1⟩, some ⟨2⟩⟩ (tlsConn 7 "http/2.0")
    ∧ serve ⟨some ⟨1⟩, some ⟨2⟩⟩ (tlsConn 7 "http/2.0")
        = handshakeEvents (tlsConn 7 "http/2.0") ++ [.protocolServe ⟨2⟩ (tlsConn 7 "http/2.0")] :=
  ⟨by decide,
    (serve_hands_to_dispatch_table ⟨some ⟨1⟩, some ⟨2⟩⟩ (tlsConn 7 "http/2.0") (tlsConn 7 "http/2.0")
      ⟨2⟩ (by decide)).2.2.2.2.1⟩

/-- C5: if the TLS handshake fails, or the negotiated protocol is none of `""`,
`http/1.0`, `http/1.1`, `http/2.0`, or the handler the dispatch table selects is
not configured, then `serve` closes the connection and does nothing else after
the handshake: no protocol handler is invoked and no bytes are written. -/
theorem serve_closes_without_handler (s : Server) (conn : Conn)
    (h : (∃ t, conn.tls = some t ∧ t.handshakeFails = true)
      ∨ (∃ t, conn.tls = some t
          ∧ t.NegotiatedProtocol ∉ ["", "http/1.0", "http/1.1", "http/2.0"])
      ∨ dispatchTable s conn = none) :
    serve s conn = handshakeEvents conn ++ [.close conn]
    ∧ (∀ p c, ServeEvent.protocolServe p c ∉ serve s conn)
    ∧ (∀ c b, ServeEvent.write c b ∉ serve s conn)
    ∧ (serve s conn).count (.close conn) = 1 := by
  have hh := handshakeEvents_cases conn
  have hs : serve s conn = handshakeEvents conn ++ [.close conn] := by
    rw [serve_eq]
    by_cases hf : ∃ t, conn.tls = some t ∧ t.handshakeFails = true
    · simp [hf]
    · have hd : dispatchTable s conn = none := by
        rcases h with h | ⟨t, ht, hn⟩ | h
        · exact absurd h hf
        · simp only [List.mem_cons, List.mem_singleton, List.not_mem_nil, or_false,
            not_or] at hn
          simp [dispatchTable, ht, hn.1, hn.2.1, hn.2.2.1, hn.2.2.2]
        · exact h
      simp [hf, hd]
  refine ⟨hs, ?_, ?_, ?_⟩
  · intro p c
    rw [hs]
    rcases hh with hh | hh <;> simp [hh]
  · intro c b
    rw [hs]
    rcases hh with hh | hh <;> simp [hh]
  · rw [hs]
    rcases hh with hh | hh <;> simp [hh]

/-- Witness of C5: a TLS connection that negotiated `h2` is closed. -/
theorem serve_closes_without_handler_witness :
    serve ⟨some ⟨1⟩, some ⟨2⟩⟩ (tlsConn 7 "h2")
      = [.handshake (tlsConn 7 "h2"), .close (tlsConn 7 "h2")] :=
  (serve_closes_without_handler ⟨some ⟨1⟩, some ⟨2⟩⟩ (tlsConn 7 "h2")
    (Or.inr (Or.inl ⟨⟨false, "h2"⟩, rfl, by decide⟩))).1

/-! ## Error recovery dispatch: proofs -/

theorem logged_recoverByCapability (v : RaisedValue) :
    logged (.resetBody :: recoverByCapability v) = true ↔
      ¬ ((v.convertibleToHTTPResponseError = true ∨ v.convertibleToHTTPError = true)
          ∧ v.StatusCode < 500) := by
  unfold recoverByCapability
  by_cases hr : v.convertibleToHTTPResponseError = true
  · by_cases hs : v.StatusCode < 500 <;> simp [hr, hs, logged]
  · by_cases he : v.convertibleToHTTPError = true
    · by_cases hs : v.StatusCode < 500 <;> simp [hr, he, hs, logged]
    · simp [hr, he, logged]

/-- C6: for a raised error value with a handler in the value-keyed registry and
a handler for its concrete type in the kind-keyed registry, `doRecover` resets
the body and invokes the value-keyed handler, once, and does nothing else: no
other handler is invoked, no status is set by capability and nothing is
logged. -/
theorem doRecover_value_handler_first (reg : Registries) (v : RaisedValue)
    (hv hk : ErrorHandler) (herr : v.convertibleToError = true)
    (h1 : mapGet reg.errValMap (v.typ, v.val) = some hv)
    (h2 : mapGet reg.errTypeMap v.typ = some hk) :
    doRecover reg v = [.resetBody, .handler hv v]
    ∧ (∀ fn w, RecoverEvent.handler fn w ∈ doRecover reg v → fn = hv ∧ w = v)
    ∧ (hk ≠ hv → RecoverEvent.handler hk v ∉ doRecover reg v)
    ∧ statusSet (doRecover reg v) = false
    ∧ logged (doRecover reg v) = false := by
  have _hkind := h2
  have hd : doRecover reg v = [.resetBody, .handler hv v] := by
    simp [doRecover, valueHandler, herr, h1]
  refine ⟨hd, ?_, ?_, ?_, ?_⟩
  · intro fn w hm
    rw [hd] at hm
    simpa using hm
  · intro hne hm
    rw [hd] at hm
    simp at hm
    exact hne hm
  · rw [hd]
    rfl
  · rw [hd]
    rfl

/-- Witness of C6: type 1 has the kind-keyed handler 5 and the value 2 of that
type has the value-keyed handler 6; handler 6 runs. -/
theorem doRecover_value_handler_first_witness :
    doRecover (RecoverByType (RecoverByErr ⟨[], []⟩ (1, 2) (some ⟨6⟩)) 1 (some ⟨5⟩))
        ⟨1, 2, true, false, false, 0, [], [], [], true⟩
      = [.resetBody, .handler ⟨6⟩ ⟨1, 2, true, false, false, 0, [], [], [], true⟩] :=
  (doRecover_value_handler_first
    (RecoverByType (RecoverByErr ⟨[], []⟩ (1, 2) (some ⟨6⟩)) 1 (some ⟨5⟩))
    ⟨1, 2, true, false, false, 0, [], [], [], true⟩ ⟨6⟩ ⟨5⟩ rfl (by decide) (by decide)).1

/-- Away from the panic of the map read: for a raised value that is read from
the value-keyed registry without a panic and that neither registry has a handler
for, `doRecover` logs a stack trace exactly when the value is not a structured
HTTP error with a status below 500: a value that is an `HTTPResponseError` or an
`HTTPError` has its status set and is logged exactly when that status is 500 or
more, and a value with neither capability gets status 500 and is logged. -/
theorem doRecover_logs_iff (reg : Registries) (v : RaisedValue)
    (h1 : valueHandler reg v = .fn none) (h2 : mapGet reg.errTypeMap v.typ = none) :
    (logged (doRecover reg v) = true ↔
      ¬ ((v.convertibleToHTTPResponseError = true ∨ v.convertibleToHTTPError = true)
          ∧ v.StatusCode < 500))
    ∧ (v.convertibleToHTTPResponseError = true ∨ v.convertibleToHTTPError = true →
        (logged (doRecover reg v) = true ↔ 500 ≤ v.StatusCode)
        ∧ RecoverEvent.setStatusCode v.StatusCode ∈ doRecover reg v)
    ∧ (v.convertibleToHTTPResponseError = false ∧ v.convertibleToHTTPError = false →
        doRecover reg v = [.resetBody, .setStatusCode 500, .logStacks v 2 20])
    ∧ (∀ fn w, RecoverEvent.handler fn w ∉ doRecover reg v) := by
  have hd : doRecover reg v = .resetBody :: recoverByCapability v := by
    simp [doRecover, h1, h2]
  have hl := logged_recoverByCapability v
  rw [hd]
  refine ⟨hl, ?_, ?_, ?_⟩
  · intro hc
    constructor
    · rw [hl]
      constructor
      · intro hn
        by_contra hlt
        exact hn ⟨hc, by omega⟩
      · intro hge hn
        omega
    · unfold recoverByCapability
      by_cases hr : v.convertibleToHTTPResponseError = true
      · by_cases hs : v.StatusCode < 500 <;> simp [hr, hs]
      · have he : v.convertibleToHTTPError = true := by
          rcases hc with hc | hc
          · exact absurd hc hr
          · exact hc
        by_cases hs : v.StatusCode < 500 <;> simp [hr, he, hs]
  · rintro ⟨hr, he⟩
    simp [recoverByCapability, hr, he, StatusInternalServerError]
  · intro fn w
    unfold recoverByCapability
    by_cases hr : v.convertibleToHTTPResponseError = true
    · by_cases hs : v.StatusCode < 500 <;> simp [hr, hs]
    · by_cases he : v.convertibleToHTTPError = true
      · by_cases hs : v.StatusCode < 500 <;> simp [hr, he, hs]
      · simp [hr, he]

/-- An `HTTPError` of a hashable type with status 404 and no handler registered
is not logged. -/
theorem doRecover_logs_iff_witness :
    logged (doRecover ⟨[], []⟩ ⟨1, 2, true, false, true, 404, [], [], [], true⟩) = false := by
  have h := (doRecover_logs_iff ⟨[], []⟩ ⟨1, 2, true, false, true, 404, [], [], [], true⟩
    (by decide) (by decide)).1
  have hn : ¬ ¬ (((⟨1, 2, true, false, true, 404, [], [], [], true⟩ : RaisedValue).convertibleToHTTPResponseError = true
      ∨ (⟨1, 2, true, false, true, 404, [], [], [], true⟩ : RaisedValue).convertibleToHTTPError = true)
      ∧ (⟨1, 2, true, false, true, 404, [], [], [], true⟩ : RaisedValue).StatusCode < 500) := by decide
  cases hb : logged (doRecover ⟨[], []⟩ ⟨1, 2, true, false, true, 404, [], [], [], true⟩)
  · rfl
  · exact absurd (h.mp hb) hn

/-- C7 (the code at the failing input): an error value whose concrete type is
not hashable, with both registries empty, makes the read of the value-keyed
registry panic right after the body was reset: no status is set and no stack
trace is logged, for a value with neither HTTP capability (where 500 and a log
are due) and for an `HTTPError` with status 500 (where a log is due). The same
happens with any registries in which the value has no entry. -/
theorem doRecover_panics_on_unhashable_error :
    doRecover ⟨[], []⟩ ⟨7, 0, true, false, false, 0, [], [], "boom".toList, false⟩
      = [.resetBody, .runtimePanic]
    ∧ statusSet (doRecover ⟨[], []⟩ ⟨7, 0, true, false, false, 0, [], [], "boom".toList, false⟩)
      = false
    ∧ logged (doRecover ⟨[], []⟩ ⟨7, 0, true, false, false, 0, [], [], "boom".toList, false⟩)
      = false
    ∧ doRecover ⟨[], []⟩ ⟨8, 0, true, false, true, 500, [], [], "boom".toList, false⟩
      = [.resetBody, .runtimePanic]
    ∧ logged (doRecover ⟨[], []⟩ ⟨8, 0, true, false, true, 500, [], [], "boom".toList, false⟩)
      = false
    ∧ (∀ (reg : Registries) (v : RaisedValue), v.convertibleToError = true →
        v.hashable = false → mapGet reg.errValMap (v.typ, v.val) = none →
        doRecover reg v = [.resetBody, .runtimePanic]) := by
  refine ⟨by decide, by decide, by decide, by decide, by decide, ?_⟩
  intro reg v he hh hm
  simp [doRecover, valueHandler, he, hh, hm]

/-! ## WebSocket upgrade: proofs -/

theorem versionOk_iff (version : Bytes) : versionOk version = true ↔ version = ['1', '3'] := by
  unfold versionOk
  constructor
  · intro h
    match version, h with
    | [a, b], h =>
      simp at h
      rw [h.1, h.2]
  · intro h
    subst h
    decide

theorem Header.Get_absent (h : Header) (name : String) (ha : (Header.Get h name).2 = false) :
    (Header.Get h name).1 = [] := by
  unfold Header.Get at *
  cases hf : h.find? (fun kv => kv.1 == name) with
  | none => rfl
  | some kv => simp [hf] at ha

/-- C8: when the `Sec-WebSocket-Version` value is not exactly `13`, or the
`Sec-WebSocket-Key` value is absent or empty, `Handshake` sets the status to 400
and returns failure; it adds no response header (so no `Sec-WebSocket-Accept`),
never computes an accept key and sends nothing. The version is read and checked
first: when it is wrong the key is not even read. -/
theorem Handshake_rejects_bad_request (opt : WebSocketOptions) (ComputeAcceptKey : Bytes → Bytes)
    (sendFails : Response → Bool) (ctx : RequestCtx)
    (h : (Header.Get ctx.Request.header HeaderSecWebSocketVersion).1 ≠ ['1', '3']
      ∨ (Header.Get ctx.Request.header HeaderSecWebSocketKey).2 = false
      ∨ (Header.Get ctx.Request.header HeaderSecWebSocketKey).1 = []) :
    (Handshake opt ComputeAcceptKey sendFails ctx).ctx.Response.statusCode = 400
    ∧ (Handshake opt ComputeAcceptKey sendFails ctx).ok = false
    ∧ (Handshake opt ComputeAcceptKey sendFails ctx).subprotocol = []
    ∧ (Handshake opt ComputeAcceptKey sendFails ctx).ctx.Response.header = ctx.Response.header
    ∧ (Handshake opt ComputeAcceptKey sendFails ctx).ctx.Request = ctx.Request
    ∧ (∀ k, WsEvent.computeAcceptKey k ∉ (Handshake opt ComputeAcceptKey sendFails ctx).events)
    ∧ (∀ res, WsEvent.sendResponse res ∉ (Handshake opt ComputeAcceptKey sendFails ctx).events)
    ∧ ((Header.Get ctx.Request.header HeaderSecWebSocketVersion).1 ≠ ['1', '3'] →
        (Handshake opt ComputeAcceptKey sendFails ctx).events
          = [.getHeader HeaderSecWebSocketVersion])
    ∧ ((Header.Get ctx.Request.header HeaderSecWebSocketVersion).1 = ['1', '3'] →
        (Handshake opt ComputeAcceptKey sendFails ctx).events
          = [.getHeader HeaderSecWebSocketVersion, .getHeader HeaderSecWebSocketKey]) := by
  by_cases hv : (Header.Get ctx.Request.header HeaderSecWebSocketVersion).1 = ['1', '3']
  · have hk : (Header.Get ctx.Request.header HeaderSecWebSocketKey).1 = [] := by
      rcases h with h | h | h
      · exact absurd hv h
      · exact Header.Get_absent _ _ h
      · exact h
    have hvo : versionOk ['1', '3'] = true := by decide
    simp [Handshake, hvo, hk, hv, StatusBadRequest]
  · have hvo : versionOk (Header.Get ctx.Request.header HeaderSecWebSocketVersion).1 = false := by
      cases hb : versionOk (Header.Get ctx.Request.header HeaderSecWebSocketVersion).1
      · rfl
      · exact absurd ((versionOk_iff _).1 hb) hv
    simp [Handshake, hvo, hv, StatusBadRequest]

/-- Witness of C8: version `8` with a key present is rejected with status 400. -/
theorem Handshake_rejects_bad_request_witness :
    (Handshake ⟨2048, 2048, true, none⟩ id (fun _ => false)
      (ctxWith [("Sec-WebSocket-Version", "8".toList),
        ("Sec-WebSocket-Key", "dGhlIHNhbXBsZSBub25jZQ==".toList)])).ctx.Response.statusCode = 400 :=
  (Handshake_rejects_bad_request ⟨2048, 2048, true, none⟩ id (fun _ => false)
    (ctxWith [("Sec-WebSocket-Version", "8".toList),
      ("Sec-WebSocket-Key", "dGhlIHNhbXBsZSBub25jZQ==".toList)])
    (Or.inl (by decide))).1

/-- C9 (the code at the failing input): with `EnableCompression` set, a request
that passes both checks and offers `permessage-deflate` in its
`Sec-WebSocket-Extensions` header is upgraded without compression, because the
loop reads the headers of the response; the same request without the offer gets
compression when the response already holds the token. -/
theorem Handshake_reads_response_extensions :
    clientOffersCompression
        (ctxWith [("Sec-WebSocket-Version", "13".toList), ("Sec-WebSocket-Key", "a2V5".toList),
          ("Sec-WebSocket-Extensions", "permessage-deflate; client_max_window_bits".toList)]) = true
    ∧ (Handshake ⟨2048, 2048, true, none⟩ id (fun _ => false)
        (ctxWith [("Sec-WebSocket-Version", "13".toList), ("Sec-WebSocket-Key", "a2V5".toList),
          ("Sec-WebSocket-Extensions", "permessage-deflate; client_max_window_bits".toList)])).ok = true
    ∧ (Handshake ⟨2048, 2048, true, none⟩ id (fun _ => false)
        (ctxWith [("Sec-WebSocket-Version", "13".toList), ("Sec-WebSocket-Key", "a2V5".toList),
          ("Sec-WebSocket-Extensions", "permessage-deflate; client_max_window_bits".toList)])
        ).ctx.Request.webSocketShouldDoCompression = false
    ∧ Header.GetAll (Handshake ⟨2048, 2048, true, none⟩ id (fun _ => false)
        (ctxWith [("Sec-WebSocket-Version", "13".toList), ("Sec-WebSocket-Key", "a2V5".toList),
          ("Sec-WebSocket-Extensions", "permessage-deflate; client_max_window_bits".toList)])
        ).ctx.Response.header HeaderSecWebSocketExtensions = []
    ∧ clientOffersCompression
        ⟨⟨[("Sec-WebSocket-Version", "13".toList), ("Sec-WebSocket-Key", "a2V5".toList)], false⟩,
          ⟨200, [("Sec-WebSocket-Extensions", "permessage-deflate".toList)], none, none⟩⟩ = false
    ∧ (Handshake ⟨2048, 2048, true, none⟩ id (fun _ => false)
        ⟨⟨[("Sec-WebSocket-Version", "13".toList), ("Sec-WebSocket-Key", "a2V5".toList)], false⟩,
          ⟨200, [("Sec-WebSocket-Extensions", "permessage-deflate".toList)], none, none⟩⟩
        ).ctx.Request.webSocketShouldDoCompression = true := by
  refine ⟨by decide, by decide, by decide, by decide, by decide, by decide⟩

theorem Header.mem_Append (h : Header) (name n : String) (v w : Bytes) :
    (n, w) ∈ Header.Append h name v ↔ (n, w) ∈ h ∨ (n = name ∧ w = v) := by
  simp [Header.Append]

theorem Header.mem_Set (h : Header) (name n : String) (v w : Bytes) :
    (n, w) ∈ Header.Set h name v ↔ ((n, w) ∈ h ∧ n ≠ name) ∨ (n = name ∧ w = v) := by
  simp [Header.Set, List.mem_filter]

theorem Header.GetAll_Append (h : Header) (name n : String) (v : Bytes) :
    Header.GetAll (Header.Append h name v) n
      = Header.GetAll h n ++ (if name = n then [v] else []) := by
  by_cases hn : name = n <;> simp [Header.GetAll, Header.Append, List.filter_append, hn]

theorem Header.GetAll_Set_same (h : Header) (name : String) (v : Bytes) :
    Header.GetAll (Header.Set h name v) name = [v] := by
  simp [Header.GetAll, Header.Set, List.filter_append, List.filter_filter]

/-- The headers of the response `Handshake` builds, before the subprotocol is
set. -/
theorem upgradeResponse_header (opt : WebSocketOptions) (K : Bytes → Bytes) (ctx : RequestCtx)
    (key : Bytes) :
    (upgradeResponse opt K ctx key).header =
      (if (chosenSubprotocol opt ctx).length > 0 then
        Header.Set
          (ctx.Response.header ++ [(HeaderConnection, upgrade), (HeaderUpgrade, websocketStr),
              (HeaderSecWebSocketAccept, K key)]
            ++ (if compressAccepted opt ctx = true then [(HeaderSecWebSocketExtensions, websocketExt)]
                else []))
          HeaderSecWebSocketProtocol (chosenSubprotocol opt ctx)
      else
        ctx.Response.header ++ [(HeaderConnection, upgrade), (HeaderUpgrade, websocketStr),
            (HeaderSecWebSocketAccept, K key)]
          ++ (if compressAccepted opt ctx = true then [(HeaderSecWebSocketExtensions, websocketExt)]
              else []))
    ∧ (upgradeResponse opt K ctx key).statusCode = StatusSwitchingProtocols := by
  unfold upgradeResponse
  by_cases hc : compressAccepted opt ctx = true <;>
    by_cases hs : (chosenSubprotocol opt ctx).length > 0 <;>
    simp [hc, hs, Header.Append]

/-- C10 (as amended): for a request that passes the version and key checks,
`Handshake` sends the response it built; when the send succeeds it returns
success with the subprotocol chosen by `SelectSubprotocol` (empty without a
selector), when the send fails it returns failure. The response sent has status
101 and carries `Connection: Upgrade`, `Upgrade: websocket` and
`Sec-WebSocket-Accept` with the accept key of the client key. It carries the
`Sec-WebSocket-Extensions` answer when compression was accepted and otherwise
only if the response held it before the call; its `Sec-WebSocket-Protocol` is the
subprotocol alone when the subprotocol is non-empty and otherwise what the
response held before the call. -/
theorem Handshake_upgrade_response (opt : WebSocketOptions) (ComputeAcceptKey : Bytes → Bytes)
    (sendFails : Response → Bool) (ctx : RequestCtx)
    (hv : (Header.Get ctx.Request.header HeaderSecWebSocketVersion).1 = ['1', '3'])
    (hk : (Header.Get ctx.Request.header HeaderSecWebSocketKey).1 ≠ []) :
    (Handshake opt ComputeAcceptKey sendFails ctx).events
      = [.getHeader HeaderSecWebSocketVersion, .getHeader HeaderSecWebSocketKey,
          .computeAcceptKey (Header.Get ctx.Request.header HeaderSecWebSocketKey).1,
          .sendResponse (Handshake opt ComputeAcceptKey sendFails ctx).ctx.Response]
    ∧ (sendFails (Handshake opt ComputeAcceptKey sendFails ctx).ctx.Response = false →
        (Handshake opt ComputeAcceptKey sendFails ctx).ok = true
        ∧ (Handshake opt ComputeAcceptKey sendFails ctx).subprotocol = chosenSubprotocol opt ctx)
    ∧ (opt.SelectSubprotocol = none → chosenSubprotocol opt ctx = [])
    ∧ (∀ f, opt.SelectSubprotocol = some f → chosenSubprotocol opt ctx = f ctx)
    ∧ (sendFails (Handshake opt ComputeAcceptKey sendFails ctx).ctx.Response = true →
        (Handshake opt ComputeAcceptKey sendFails ctx).ok = false
        ∧ (Handshake opt ComputeAcceptKey sendFails ctx).subprotocol = [])
    ∧ (Handshake opt ComputeAcceptKey sendFails ctx).ctx.Response.statusCode = 101
    ∧ (HeaderConnection, upgrade) ∈ (Handshake opt ComputeAcceptKey sendFails ctx).ctx.Response.header
    ∧ (HeaderUpgrade, websocketStr)
        ∈ (Handshake opt ComputeAcceptKey sendFails ctx).ctx.Response.header
    ∧ (HeaderSecWebSocketAccept,
          ComputeAcceptKey (Header.Get ctx.Request.header HeaderSecWebSocketKey).1)
        ∈ (Handshake opt ComputeAcceptKey sendFails ctx).ctx.Response.header
    ∧ ((HeaderSecWebSocketExtensions, websocketExt)
          ∈ (Handshake opt ComputeAcceptKey sendFails ctx).ctx.Response.header
        ↔ compressAccepted opt ctx = true
          ∨ (HeaderSecWebSocketExtensions, websocketExt) ∈ ctx.Response.header)
    ∧ (chosenSubprotocol opt ctx ≠ [] →
        Header.GetAll (Handshake opt ComputeAcceptKey sendFails ctx).ctx.Response.header
          HeaderSecWebSocketProtocol = [chosenSubprotocol opt ctx])
    ∧ (chosenSubprotocol opt ctx = [] →
        Header.GetAll (Handshake opt ComputeAcceptKey sendFails ctx).ctx.Response.header
          HeaderSecWebSocketProtocol = Header.GetAll ctx.Response.header HeaderSecWebSocketProtocol) := by
  have hvo : versionOk ['1', '3'] = true := by decide
  have hkl : ¬ (Header.Get ctx.Request.header HeaderSecWebSocketKey).1.length < 1 := by
    cases hkey : (Header.Get ctx.Request.header HeaderSecWebSocketKey).1 with
    | nil => exact absurd hkey hk
    | cons a l => simp
  have hres : (Handshake opt ComputeAcceptKey sendFails ctx).ctx.Response
      = upgradeResponse opt ComputeAcceptKey ctx
          (Header.Get ctx.Request.header HeaderSecWebSocketKey).1 := by
    unfold Handshake
    simp only [hv, hvo, hkl, Bool.not_true, Bool.false_eq_true, if_false]
    split <;> rfl
  have hhead := upgradeResponse_header opt ComputeAcceptKey ctx
    (Header.Get ctx.Request.header HeaderSecWebSocketKey).1
  have hne1 : HeaderConnection ≠ HeaderSecWebSocketProtocol := by decide
  have hne2 : HeaderUpgrade ≠ HeaderSecWebSocketProtocol := by decide
  have hne3 : HeaderSecWebSocketAccept ≠ HeaderSecWebSocketProtocol := by decide
  have hne4 : HeaderSecWebSocketExtensions ≠ HeaderSecWebSocketProtocol := by decide
  have hne5 : HeaderSecWebSocketExtensions ≠ HeaderConnection := by decide
  have hne6 : HeaderSecWebSocketExtensions ≠ HeaderUpgrade := by decide
  have hne7 : HeaderSecWebSocketExtensions ≠ HeaderSecWebSocketAccept := by decide
  refine ⟨?_, ?_, ?_, ?_, ?_, ?_, ?_, ?_, ?_, ?_, ?_, ?_⟩
  · rw [hres]
    unfold Handshake
    simp only [hv, hvo, hkl, Bool.not_true, Bool.false_eq_true, if_false]
    split <;> rfl
  · intro hs
    rw [hres] at hs
    unfold Handshake
    simp [hv, hvo, hkl, hs]
  · intro hn
    simp [chosenSubprotocol, hn]
  · intro f hf
    simp [chosenSubprotocol, hf]
  · intro hs
    rw [hres] at hs
    unfold Handshake
    simp [hv, hvo, hkl, hs]
  · rw [hres, hhead.2]
    rfl
  · rw [hres, hhead.1]
    split
    · rw [Header.mem_Set]
      exact Or.inl ⟨by simp, hne1⟩
    · simp
  · rw [hres, hhead.1]
    split
    · rw [Header.mem_Set]
      exact Or.inl ⟨by simp, hne2⟩
    · simp
  · rw [hres, hhead.1]
    split
    · rw [Header.mem_Set]
      exact Or.inl ⟨by simp, hne3⟩
    · simp
  · rw [hres, hhead.1]
    by_cases hc : compressAccepted opt ctx = true
    · simp only [hc, if_true, true_or, iff_true]
      split
      · rw [Header.mem_Set]
        exact Or.inl ⟨by simp, hne4⟩
      · simp
    · simp only [hc, if_false, false_or, List.append_nil]
      split
      · rw [Header.mem_Set]
        simp [hne4, hne5, hne6, hne7]
      · simp [hne5, hne6, hne7]
  · intro hs
    have hlen : (chosenSubprotocol opt ctx).length > 0 := List.length_pos.2 hs
    rw [hres, hhead.1]
    simp only [hlen, if_true]
    exact Header.GetAll_Set_same _ _ _
  · intro hs
    rw [hres, hhead.1]
    simp only [hs, List.length_nil, gt_iff_lt, lt_self_iff_false, if_false]
    by_cases hc : compressAccepted opt ctx = true
    · simp [hc, Header.GetAll, List.filter_append, List.filter_cons, hne1, hne2, hne3, hne4]
    · simp [hc, Header.GetAll, List.filter_append, List.filter_cons, hne1, hne2, hne3]

/-- Witness of C10 (as amended): compression is enabled, the response already
holds the token, the selector picks `chat`, and the send succeeds. -/
theorem Handshake_upgrade_response_witness :
    (Handshake ⟨2048, 2048, true, some (fun _ => "chat".toList)⟩ id (fun _ => false)
        ⟨⟨[("Sec-WebSocket-Version", "13".toList), ("Sec-WebSocket-Key", "a2V5".toList)], false⟩,
          ⟨200, [("Sec-WebSocket-Extensions", "permessage-deflate".toList)], none, none⟩⟩).ok = true
    ∧ (Handshake ⟨2048, 2048, true, some (fun _ => "chat".toList)⟩ id (fun _ => false)
        ⟨⟨[("Sec-WebSocket-Version", "13".toList), ("Sec-WebSocket-Key", "a2V5".toList)], false⟩,
          ⟨200, [("Sec-WebSocket-Extensions", "permessage-deflate".toList)], none, none⟩⟩).subprotocol
      = chosenSubprotocol ⟨2048, 2048, true, some (fun _ => "chat".toList)⟩
        ⟨⟨[("Sec-WebSocket-Version", "13".toList), ("Sec-WebSocket-Key", "a2V5".toList)], false⟩,
          ⟨200, [("Sec-WebSocket-Extensions", "permessage-deflate".toList)], none, none⟩⟩ :=
  (Handshake_upgrade_response ⟨2048, 2048, true, some (fun _ => "chat".toList)⟩ id (fun _ => false)
    ⟨⟨[("Sec-WebSocket-Version", "13".toList), ("Sec-WebSocket-Key", "a2V5".toList)], false⟩,
      ⟨200, [("Sec-WebSocket-Extensions", "permessage-deflate".toList)], none, none⟩⟩
    (by decide) (by decide)).2.1 (by decide)

/-- C10 (as stated) fails: with compression not enabled and no selector, a
request that passes both checks, and a response that already holds a
`Sec-WebSocket-Extensions` answer and a `Sec-WebSocket-Protocol` header, the send
succeeds, compression is not accepted and the subprotocol is empty, and the
response sent carries both headers all the same. -/
theorem Handshake_extensions_counterexample :
    (Handshake ⟨2048, 2048, false, none⟩ id (fun _ => false)
        ⟨⟨[("Sec-WebSocket-Version", "13".toList), ("Sec-WebSocket-Key", "a2V5".toList)], false⟩,
          ⟨200, [("Sec-WebSocket-Extensions", websocketExt),
            ("Sec-WebSocket-Protocol", "chat".toList)], none, none⟩⟩).ok = true
    ∧ (Handshake ⟨2048, 2048, false, none⟩ id (fun _ => false)
        ⟨⟨[("Sec-WebSocket-Version", "13".toList), ("Sec-WebSocket-Key", "a2V5".toList)], false⟩,
          ⟨200, [("Sec-WebSocket-Extensions", websocketExt),
            ("Sec-WebSocket-Protocol", "chat".toList)], none, none⟩⟩).subprotocol = []
    ∧ compressAccepted ⟨2048, 2048, false, none⟩
        ⟨⟨[("Sec-WebSocket-Version", "13".toList), ("Sec-WebSocket-Key", "a2V5".toList)], false⟩,
          ⟨200, [("Sec-WebSocket-Extensions", websocketExt),
            ("Sec-WebSocket-Protocol", "chat".toList)], none, none⟩⟩ = false
    ∧ (Handshake ⟨2048, 2048, false, none⟩ id (fun _ => false)
        ⟨⟨[("Sec-WebSocket-Version", "13".toList), ("Sec-WebSocket-Key", "a2V5".toList)], false⟩,
          ⟨200, [("Sec-WebSocket-Extensions", websocketExt),
            ("Sec-WebSocket-Protocol", "chat".toList)], none, none⟩⟩
        ).ctx.Request.webSocketShouldDoCompression = false
    ∧ (Handshake ⟨2048, 2048, false, none⟩ id (fun _ => false)
        ⟨⟨[("Sec-WebSocket-Version", "13".toList), ("Sec-WebSocket-Key", "a2V5".toList)], false⟩,
          ⟨200, [("Sec-WebSocket-Extensions", websocketExt),
            ("Sec-WebSocket-Protocol", "chat".toList)], none, none⟩⟩).events.getLast?
      = some (.sendResponse ⟨101, [("Sec-WebSocket-Extensions", websocketExt),
          ("Sec-WebSocket-Protocol", "chat".toList), ("Connection", upgrade),
          ("Upgrade", websocketStr), ("Sec-WebSocket-Accept", "a2V5".toList)], none, none⟩)
    ∧ (HeaderSecWebSocketExtensions, websocketExt)
        ∈ (Handshake ⟨2048, 2048, false, none⟩ id (fun _ => false)
            ⟨⟨[("Sec-WebSocket-Version", "13".toList), ("Sec-WebSocket-Key", "a2V5".toList)], false⟩,
              ⟨200, [("Sec-WebSocket-Extensions", websocketExt),
                ("Sec-WebSocket-Protocol", "chat".toList)], none, none⟩⟩).ctx.Response.header
    ∧ Header.GetAll (Handshake ⟨2048, 2048, false, none⟩ id (fun _ => false)
            ⟨⟨[("Sec-WebSocket-Version", "13".toList), ("Sec-WebSocket-Key", "a2V5".toList)], false⟩,
              ⟨200, [("Sec-WebSocket-Extensions", websocketExt),
                ("Sec-WebSocket-Protocol", "chat".toList)], none, none⟩⟩).ctx.Response.header
          HeaderSecWebSocketProtocol = ["chat".toList] := by
  refine ⟨by decide, by decide, by decide, by decide, by decide, by decide, by decide⟩

/-! ## Disabled compression: proofs -/

/-- C11: once `DisableCompress` has been called, `AutoCompress` returns at once
for every request and every state of the pools and levels: the context, and so
the response, is left as it was, whatever the `Accept-Encoding` headers are; no
`Content-Encoding` header is set and no compression writer or pool is
installed. The same holds in any later state in which the switch is still
set. -/
theorem AutoCompress_disabled_noop (env : CompressEnv) (ctx : RequestCtx) :
    AutoCompress (DisableCompress env) ctx = .ok ctx
    ∧ (∀ c, AutoCompress (DisableCompress env) ctx = .ok c →
        c.Response = ctx.Response
        ∧ Header.GetAll c.Response.header HeaderContentEncoding
            = Header.GetAll ctx.Response.header HeaderContentEncoding
        ∧ c.Response.cw = ctx.Response.cw ∧ c.Response.cwp = ctx.Response.cwp)
    ∧ (∀ h : Header,
        AutoCompress (DisableCompress env) { ctx with Request := { ctx.Request with header := h } }
          = .ok { ctx with Request := { ctx.Request with header := h } })
    ∧ (∀ env' : CompressEnv, env'.disableCompress = true → AutoCompress env' ctx = .ok ctx) := by
  have hall : ∀ (env' : CompressEnv) (x : RequestCtx), env'.disableCompress = true →
      AutoCompress env' x = .ok x := by
    intro env' x he
    simp [AutoCompress, he]
  refine ⟨hall _ _ rfl, ?_, ?_, ?_⟩
  · intro c hc
    rw [hall _ _ rfl] at hc
    cases hc
    exact ⟨rfl, rfl, rfl, rfl⟩
  · intro h
    exact hall _ _ rfl
  · intro env' he
    exact hall env' ctx he

/-! ## Spawning of serve tasks: proofs -/

/-- C12 (the code at the failing input): an `Accept` that fails with an error
that is not transient starts a serve task all the same, with the nil connection
it returned, because only the transient branch leaves the turn of the loop; a
success starts one task with its connection and a transient error starts
none. -/
theorem doAccept_serves_after_fatal_error :
    doAccept [fatalFailure] = [.goServe none]
    ∧ doAccept [otherFailure] = [.goServe none]
    ∧ doAccept [accepted (plainConn 1), fatalFailure, transientFailure, accepted (plainConn 2)]
      = [.goServe (some (plainConn 1)), .goServe none, .sleep (5 * Millisecond),
          .goServe (some (plainConn 2))] := by
  refine ⟨by decide, by decide, by decide⟩

end Suna
